import Mathlib

/-!
Verification development for the `gobench` benchmark-orchestration tool.

The definitions below are a shallow embedding of `src/main.go` (and, where
marked, of the older variant in `src/unnamed/part_000`).  External
collaborators (git, the Go test binary, benchstat, pprof) are blocking child
processes; the orchestration is therefore modelled as the list of external
actions (`Event`s) the tool issues, in order, as a function of the
configuration and of the answers the collaborators give (whether the working
tree is dirty, what the current branch is, what the benchmark engine prints).
Path handling models the Unix behaviour of Go's `path/filepath`.
-/

namespace Gobench

/-- Embedding of the `config` struct of src/main.go.  Field order and names
follow the source; `Count` is a Go `int`, modelled as `Int`. -/
structure Config where
  Bench : String
  Count : Int
  Package : String
  Base : String
  BaseGoExe : String
  Tags : String
  Cpu : String
  ProfType : String
  ProfCallgrind : Bool
  ProfSampleIndex : String
  OutDir : String
deriving Repr, DecidableEq

/-- Embedding of `benchStatCountCompare` (src/main.go line 47): number of runs
when comparing branches, used when `--count` is unset. -/
def benchStatCountCompare : Int := 4

/-- Embedding of the `runner` struct of src/main.go: the current git branch
plus the embedded configuration. -/
structure Runner where
  currentBranch : String
  config : Config
deriving Repr, DecidableEq

/-- One external action issued by the orchestrator: a `git stash` subcommand,
a `git checkout`, one benchmark-engine run (executable name and revision
label), one `benchstat` comparison (the two revision labels whose result
files are compared), one `pprof` invocation, or a `log.Fatal` abort. -/
inductive Event where
  | stash : String → Event
  | checkout : String → Event
  | benchRun : String → String → Event
  | benchStat : String → String → Event
  | pprofRun : Event
  | fatal : String → Event
deriving Repr, DecidableEq

/-- Event is a working-tree or benchmark side effect (checkout, stash, or a
benchmark-engine run), as opposed to a query, report or abort. -/
def isSideEffect : Event → Bool
  | Event.checkout _ => true
  | Event.stash _ => true
  | Event.benchRun _ _ => true
  | _ => false

/-- Event is a benchmark-engine run. -/
def isBenchRun : Event → Bool
  | Event.benchRun _ _ => true
  | _ => false

/-- Event is a benchstat comparison. -/
def isBenchStat : Event → Bool
  | Event.benchStat _ _ => true
  | _ => false

/-- Event is a pprof invocation. -/
def isPprof : Event → Bool
  | Event.pprofRun => true
  | _ => false

/-- Event is a `log.Fatal` abort. -/
def isFatal : Event → Bool
  | Event.fatal _ => true
  | _ => false

/-- Embedding of `runner.runBenchmarks` (src/main.go lines 92-142).
Inputs: the resolved default Go executable (package variable `goExe`), the
runner, and the answer of `hasUncommittedChanges()`.  Output: the ordered
list of external actions issued, and the configuration as mutated by the
method (`r.Base`, `r.Count`).  `log.Fatal` ends the trace with a `fatal`
event.  The git operations themselves are modelled as succeeding, and
`runBenchmark` never reports an error (see `runBenchmarkErr` below), so
`checkErr` never aborts on this path. -/
def runBenchmarks (goExe : String) (r : Runner) (hasUncommitted : Bool) :
    List Event × Config :=
  if hasUncommitted = true ∧ r.config.Base ≠ "" then
    ([Event.fatal "error: --base set, but there are uncommited changes."], r.config)
  else
    let base := if r.config.Base = "" ∧ hasUncommitted = true then "stash" else r.config.Base
    let count :=
      if r.config.Count = 0 then
        if base ≠ "" ∨ r.config.BaseGoExe ≠ "" then benchStatCountCompare else 1
      else r.config.Count
    let cfg : Config := { r.config with Base := base, Count := count }
    let second := r.currentBranch
    let exe1 := goExe
    let exe2 := if cfg.BaseGoExe = "" then exe1 else cfg.BaseGoExe
    let pf : List Event × String :=
      if hasUncommitted = true then
        ([Event.stash "save", Event.benchRun exe1 base, Event.stash "pop"], base)
      else if base ≠ "" ∨ cfg.BaseGoExe ≠ "" then
        let first := if base = "" then r.currentBranch else base
        ([Event.checkout first, Event.benchRun exe1 first] ++
          (if second ≠ first then [Event.checkout second] else []), first)
      else ([], base)
    (pf.1 ++ [Event.benchRun exe2 second] ++
      (if pf.2 ≠ "" then [Event.benchStat pf.2 second] else []), cfg)

/-- Embedding of `config.profilingEnabled` (src/main.go line 325). -/
def profilingEnabled (c : Config) : Bool := c.ProfType ≠ ""

/-- Embedding of the tail of `main` (src/main.go lines 79-84): run
`runBenchmarks`, then run pprof when profiling is enabled.  A `log.Fatal`
inside `runBenchmarks` exits the process, so nothing follows it. -/
def mainTrace (goExe : String) (r : Runner) (hasUncommitted : Bool) : List Event :=
  let p := runBenchmarks goExe r hasUncommitted
  if p.1.any isFatal then p.1
  else p.1 ++ (if profilingEnabled p.2 then [Event.pprofRun] else [])

/-- One step of `main` before and around `runBenchmarks`: a `p.Fail` usage
abort, the creation of the temporary output directory, or one orchestration
event. -/
inductive MainStep where
  | usageFail : String → MainStep
  | createOutDir : MainStep
  | run : Event → MainStep
deriving Repr, DecidableEq

/-- Embedding of `main` (src/main.go lines 49-85): validate `ProfType`
(allowed values `mem`, `cpu`, `block`), then allocate a temporary output
directory when `OutDir` is empty, then run the benchmarks and, when
profiling is enabled, pprof.  `tmpDir` is the name the temp-dir allocator
returns; `currentBranch` the answer of `getCurrentBranch()`. -/
def mainSteps (goExe tmpDir currentBranch : String) (cfg : Config)
    (hasUncommitted : Bool) : List MainStep :=
  if cfg.ProfType ≠ "" ∧
      (cfg.ProfType ≠ "mem" ∧ cfg.ProfType ≠ "cpu" ∧ cfg.ProfType ≠ "block") then
    [MainStep.usageFail "Unsupported profType"]
  else
    let mk := cfg.OutDir = ""
    let cfg2 : Config := if mk then { cfg with OutDir := tmpDir } else cfg
    (if mk then [MainStep.createOutDir] else []) ++
      (mainTrace goExe ⟨currentBranch, cfg2⟩ hasUncommitted).map MainStep.run

/-- Embedding of the error result of `runner.runBenchmark` (src/main.go
lines 144-169).  `createFileErr` is the outcome of
`createBenchOutputFile`, `cmdRunErr` the outcome of `cmd.Run()` (the
benchmark engine; `some e` when the engine exits non-zero or cannot be
launched).  The source builds an error with `fmt.Errorf` when `cmd.Run`
fails but does not return it — the constructed value is discarded and the
function falls through to `return nil`. -/
def runBenchmarkErr (createFileErr : Option String) (cmdRunErr : Option String) :
    Option String :=
  match createFileErr with
  | some e => some e
  | none =>
    let _discarded := cmdRunErr.map (fun e => "failed to execute: " ++ e)
    none

/-- Embedding of `checkErr` (src/main.go lines 276-280): `log.Fatal` with the
given prefix when the error is non-nil, otherwise do nothing.  The result is
`some msg` when the process aborts. -/
def checkErrFatal (what : String) : Option String → Option String
  | some e => some (what ++ ": Error: " ++ e)
  | none => none

/-- Character-level substitution used by `normalizeName`: a path separator
becomes a dash, every other character is kept. -/
def normalizeChar (c : Char) : Char := if c = '/' then '-' else c

/-- Embedding of `config.normalizeName` (src/main.go lines 307-310):
`strings.ReplaceAll(name, "/", "-")`, i.e. every `/` of the label becomes
`-` (slashes appear in hierarchical branch names).  The config receiver is
unused by the source body. -/
def normalizeName (name : String) : String := ⟨name.data.map normalizeChar⟩

/-- Splitting helper for the embedding of `path/filepath.Clean`: cut a
character list at every `/`, accumulating the current component in `acc`
(reversed). -/
def splitCompsAux : List Char → List Char → List (List Char)
  | acc, [] => [acc.reverse]
  | acc, c :: rest =>
    if c = '/' then acc.reverse :: splitCompsAux [] rest
    else splitCompsAux (c :: acc) rest

/-- Non-empty path components of a character list (empty components arise
from doubled or leading separators and are ignored by `Clean`). -/
def pathComponents (s : List Char) : List (List Char) :=
  (splitCompsAux [] s).filter (fun c => !c.isEmpty)

/-- One step of `Clean`'s component processing, over a stack `acc` of already
emitted components (in reverse order): `.` is dropped; `..` pops the previous
component when there is one that is not itself a kept `..`, is dropped at the
root of a rooted path, and is kept in front of a relative path; any other
component is pushed. -/
def cleanStep (isRooted : Bool) (acc : List (List Char)) (c : List Char) :
    List (List Char) :=
  if c = ['.'] then acc
  else if c = ['.', '.'] then
    match acc with
    | [] => if isRooted then [] else [['.', '.']]
    | a :: rest => if a = ['.', '.'] then c :: acc else rest
  else c :: acc

/-- Resolve `.` and `..` components as `path/filepath.Clean` does. -/
def resolveDots (isRooted : Bool) (comps : List (List Char)) : List (List Char) :=
  (comps.foldl (cleanStep isRooted) []).reverse

/-- Join components back with `/` separators. -/
def joinComps : List (List Char) → List Char
  | [] => []
  | [c] => c
  | c :: rest => c ++ '/' :: joinComps rest

/-- Whether a character list denotes a rooted (absolute) Unix path
(Go checks `path[0] == '/'`). -/
def isRootedChars : List Char → Bool
  | [] => false
  | c :: _ => c == '/'

/-- Embedding of `path/filepath.Clean` (Unix), at the character-list level:
the empty path becomes `.`; otherwise the path is split into components,
empty and `.` components are dropped, `..` components are resolved against
the preceding component (kept at the front of a relative path, dropped at
the root of a rooted one), the result is re-joined with `/`, prefixed with
`/` when the input was rooted, and an empty relative result becomes `.`. -/
def cleanChars (s : List Char) : List Char :=
  if s.isEmpty then ['.']
  else if isRootedChars s then
    '/' :: joinComps (resolveDots (isRootedChars s) (pathComponents s))
  else if (joinComps (resolveDots (isRootedChars s) (pathComponents s))).isEmpty then
    ['.']
  else joinComps (resolveDots (isRootedChars s) (pathComponents s))

/-- Embedding of the two-argument `path/filepath.Join` (Unix): empty leading
elements are skipped, the remaining elements are joined with `/` and the
result is cleaned; when every element is empty the result is empty. -/
def filepathJoin (a b : String) : String :=
  if a = "" then
    if b = "" then "" else ⟨cleanChars b.data⟩
  else ⟨cleanChars (a.data ++ '/' :: b.data)⟩

/-- Embedding of `config.benchOutFilename` (src/main.go lines 312-314):
`filepath.Join(c.OutDir, c.normalizeName(name)+".bench")`. -/
def benchOutFilename (c : Config) (name : String) : String :=
  filepathJoin c.OutDir (normalizeName name ++ ".bench")

/-- The cleaned-prefix contributed by the directory part of a join: what
stands before the final component in `cleanChars (d ++ '/' :: x)` when `x`
is a single separator-free component. -/
def joinPrefix (d : List Char) : List Char :=
  (if isRootedChars d then ['/'] else []) ++
    (if (resolveDots (isRootedChars d) (pathComponents d)).isEmpty then []
     else joinComps (resolveDots (isRootedChars d) (pathComponents d)) ++ ['/'])

/-- Overwriting file write, modelling `os.Create` followed by streaming the
process output into the file (src/main.go `createBenchOutputFile`, lines
328-334, and the `io.MultiWriter` in `runBenchmark`): `os.Create` truncates
an existing file, so the new content replaces whatever was there. -/
def fsWrite (fs : String → Option String) (name content : String) :
    String → Option String :=
  fun n => if n = name then some content else fs n

/-- Replay the file writes of a trace: every benchmark run creates (in
truncate mode) and fills the result file derived from its label.
`engineOut exe label` is the text the benchmark engine prints on that run;
other events touch no result file. -/
def runBenchWrites (c : Config) (engineOut : String → String → String) :
    List Event → (String → Option String) → (String → Option String)
  | [], fs => fs
  | Event.benchRun exe label :: rest, fs =>
    runBenchWrites c engineOut rest
      (fsWrite fs (benchOutFilename c label) (engineOut exe label))
  | _ :: rest, fs => runBenchWrites c engineOut rest fs

/-- Labels of the benchmark-engine runs of a trace, in order. -/
def benchRunLabels (t : List Event) : List String :=
  t.filterMap (fun e => match e with
    | Event.benchRun _ l => some l
    | _ => none)

end Gobench

namespace GobenchVariant

/-- Embedding of the `config` struct of the older variant
src/unnamed/part_000. -/
structure Config where
  Bench : String
  Count : Int
  BenchMem : Bool
  Package : String
  Branch1 : String
  Branch2 : String
  EnableMemProfile : Bool
  EnableCpuProfile : Bool
  OutputDir : String
deriving Repr, DecidableEq

/-- One external step of the variant's `main`. -/
inductive Step where
  | fatal : String → Step
  | createOutDir : Step
  | checkout : String → Step
  | benchRun : String → Step
  | benchCmp : String → String → Step
  | pprofRun : Step
deriving Repr, DecidableEq

/-- Embedding of the variant's `runner.runBenchmarks`
(src/unnamed/part_000): checkout and run branch 1; when the two branches
are equal, stop; otherwise checkout and run branch 2 and compare. -/
def runBenchmarksSteps (cfg : Config) : List Step :=
  [Step.checkout cfg.Branch1, Step.benchRun cfg.Branch1] ++
    (if cfg.Branch1 = cfg.Branch2 then []
     else [Step.checkout cfg.Branch2, Step.benchRun cfg.Branch2,
           Step.benchCmp cfg.Branch1 cfg.Branch2])

/-- Embedding of the variant's `config.profilingEnabled`. -/
def profilingEnabled (cfg : Config) : Bool :=
  cfg.EnableCpuProfile || cfg.EnableMemProfile

/-- Embedding of the variant's `main` (src/unnamed/part_000 lines 33-66):
reject the simultaneous request of both profile kinds before anything else,
then allocate the output directory when unset, run the benchmarks, and run
pprof when profiling is enabled. -/
def mainSteps (tmpDir : String) (cfg : Config) : List Step :=
  if cfg.EnableCpuProfile = true ∧ cfg.EnableMemProfile = true then
    [Step.fatal "Use either --enablememprofile or --enablecpuprofile -- not both."]
  else
    let mk := cfg.OutputDir = ""
    let cfg2 : Config := if mk then { cfg with OutputDir := tmpDir } else cfg
    (if mk then [Step.createOutDir] else []) ++ runBenchmarksSteps cfg2 ++
      (if profilingEnabled cfg2 then [Step.pprofRun] else [])

end GobenchVariant

section PathLemmas

open Gobench

/-- Normalizing a character twice is the same as normalizing it once. -/
theorem normalizeChar_idem (c : Char) :
    normalizeChar (normalizeChar c) = normalizeChar c := by
  by_cases h : c = '/'
  · subst h; decide
  · simp [normalizeChar, h]

/-- The substitute character is never a path separator. -/
theorem normalizeChar_ne_slash (c : Char) : normalizeChar c ≠ '/' := by
  by_cases h : c = '/'
  · subst h; decide
  · simp [normalizeChar, h]

/-- On characters other than the dash, the substitution is injective. -/
theorem normalizeChar_inj {c₁ c₂ : Char} (h₁ : c₁ ≠ '-') (h₂ : c₂ ≠ '-')
    (h : normalizeChar c₁ = normalizeChar c₂) : c₁ = c₂ := by
  by_cases ha : c₁ = '/'
  · by_cases hb : c₂ = '/'
    · rw [ha, hb]
    · rw [ha] at h
      simp [normalizeChar, hb] at h
      exact absurd h.symm h₂
  · by_cases hb : c₂ = '/'
    · rw [hb] at h
      simp [normalizeChar, ha] at h
      exact absurd h h₁
    · simpa [normalizeChar, ha, hb] using h

/-- Character-list version of the injectivity of normalization on dash-free
labels. -/
theorem map_normalizeChar_inj : ∀ (l₁ l₂ : List Char),
    (∀ c ∈ l₁, c ≠ '-') → (∀ c ∈ l₂, c ≠ '-') →
    l₁.map normalizeChar = l₂.map normalizeChar → l₁ = l₂
  | [], [], _, _, _ => rfl
  | [], _ :: _, _, _, h => by simp at h
  | _ :: _, [], _, _, h => by simp at h
  | a :: l₁, b :: l₂, h₁, h₂, h => by
    simp only [List.map_cons, List.cons.injEq] at h
    have hab : a = b :=
      normalizeChar_inj (h₁ a (List.mem_cons_self a l₁)) (h₂ b (List.mem_cons_self b l₂)) h.1
    have hl : l₁ = l₂ :=
      map_normalizeChar_inj l₁ l₂ (fun c hc => h₁ c (List.mem_cons_of_mem _ hc))
        (fun c hc => h₂ c (List.mem_cons_of_mem _ hc)) h.2
    rw [hab, hl]

/-- Splitting distributes over a separator that joins two pieces. -/
theorem splitCompsAux_append (x : List Char) : ∀ (d acc : List Char),
    splitCompsAux acc (d ++ '/' :: x) = splitCompsAux acc d ++ splitCompsAux [] x
  | [], acc => by simp [splitCompsAux]
  | c :: d, acc => by
    by_cases h : c = '/' <;>
      simp [splitCompsAux, h, splitCompsAux_append x d]

/-- A separator-free piece splits into the single component it is. -/
theorem splitCompsAux_noSlash : ∀ (x acc : List Char), (∀ c ∈ x, c ≠ '/') →
    splitCompsAux acc x = [acc.reverse ++ x]
  | [], acc, _ => by simp [splitCompsAux]
  | c :: rest, acc, h => by
    have hc : c ≠ '/' := h c (List.mem_cons_self c rest)
    have ih := splitCompsAux_noSlash rest (c :: acc)
      (fun d hd => h d (List.mem_cons_of_mem _ hd))
    simp [splitCompsAux, hc, ih]

/-- A non-empty list is not `isEmpty`. -/
theorem isEmpty_false_of_ne_nil {α : Type} {l : List α} (h : l ≠ []) :
    l.isEmpty = false := by
  cases l with
  | nil => exact absurd rfl h
  | cons a l => rfl

/-- Components of a directory joined with one separator-free component. -/
theorem pathComponents_append (d x : List Char) (hx : x ≠ [])
    (hs : ∀ c ∈ x, c ≠ '/') :
    pathComponents (d ++ '/' :: x) = pathComponents d ++ [x] := by
  unfold pathComponents
  rw [splitCompsAux_append x d [], List.filter_append]
  congr 1
  rw [splitCompsAux_noSlash x [] hs]
  simp [List.filter, isEmpty_false_of_ne_nil hx]

/-- Components of a single separator-free non-empty piece. -/
theorem pathComponents_single (x : List Char) (hx : x ≠ [])
    (hs : ∀ c ∈ x, c ≠ '/') : pathComponents x = [x] := by
  unfold pathComponents
  rw [splitCompsAux_noSlash x [] hs]
  simp [List.filter, isEmpty_false_of_ne_nil hx]

/-- Resolving dots leaves a trailing ordinary component in place. -/
theorem resolveDots_append (r : Bool) (C : List (List Char)) (x : List Char)
    (h₁ : x ≠ ['.']) (h₂ : x ≠ ['.', '.']) :
    resolveDots r (C ++ [x]) = resolveDots r C ++ [x] := by
  unfold resolveDots
  rw [List.foldl_append (cleanStep r) [] C [x]]
  simp [cleanStep, h₁, h₂]

/-- Reduction of the join on two or more components. -/
theorem joinComps_cons₂ (c c₂ : List Char) (t : List (List Char)) :
    joinComps (c :: c₂ :: t) = c ++ '/' :: joinComps (c₂ :: t) := rfl

/-- Joining components with a trailing component appends it after the
separator (or yields just the component when nothing precedes it). -/
theorem joinComps_append : ∀ (L : List (List Char)) (x : List Char),
    joinComps (L ++ [x]) = (if L = [] then [] else joinComps L ++ ['/']) ++ x
  | [], x => by simp [joinComps]
  | [c], x => by simp [joinComps]
  | c :: c₂ :: L, x => by
    have ih := joinComps_append (c₂ :: L) x
    rw [if_neg (List.cons_ne_nil c₂ L)] at ih
    rw [if_neg (List.cons_ne_nil c (c₂ :: L))]
    simp only [List.cons_append] at ih ⊢
    rw [joinComps_cons₂, ih, joinComps_cons₂]
    simp

/-- Rootedness of a join is decided by its non-empty left piece. -/
theorem isRootedChars_append (d : List Char) (hd : d ≠ []) (y : List Char) :
    isRootedChars (d ++ y) = isRootedChars d := by
  cases d with
  | nil => exact absurd rfl hd
  | cons c d => simp [isRootedChars]

end PathLemmas

section CleanLemmas

open Gobench

/-- Cleaning a directory joined by one separator to a single separator-free,
non-dot component yields the cleaned directory prefix followed by the
component unchanged: the trailing component survives `Clean` intact. -/
theorem cleanChars_join (d x : List Char) (hd : d ≠ []) (hx : x ≠ [])
    (hs : ∀ c ∈ x, c ≠ '/') (h₁ : x ≠ ['.']) (h₂ : x ≠ ['.', '.']) :
    cleanChars (d ++ '/' :: x) = joinPrefix d ++ x := by
  have hne : d ++ '/' :: x ≠ [] := by simp
  unfold cleanChars joinPrefix
  rw [isRootedChars_append d hd ('/' :: x), pathComponents_append d x hx hs,
    resolveDots_append _ _ _ h₁ h₂, joinComps_append]
  cases hr : isRootedChars d with
  | true =>
    simp [isEmpty_false_of_ne_nil hne]
  | false =>
    have hxe :
        ((if resolveDots false (pathComponents d) = [] then []
          else joinComps (resolveDots false (pathComponents d)) ++ ['/']) ++ x) ≠ [] :=
      fun hcon => hx (List.append_eq_nil.mp hcon).2
    simp [isEmpty_false_of_ne_nil hne, isEmpty_false_of_ne_nil hxe]

/-- Cleaning a single separator-free, non-dot, non-empty component is the
identity. -/
theorem cleanChars_single (x : List Char) (hx : x ≠ [])
    (hs : ∀ c ∈ x, c ≠ '/') (h₁ : x ≠ ['.']) (h₂ : x ≠ ['.', '.']) :
    cleanChars x = x := by
  have hr : isRootedChars x = false := by
    cases x with
    | nil => exact absurd rfl hx
    | cons c rest =>
      have : c ≠ '/' := hs c (List.mem_cons_self c rest)
      simp [isRootedChars, this]
  have hres : resolveDots false [x] = [x] := by
    unfold resolveDots
    simp [cleanStep, h₁, h₂]
  unfold cleanChars
  rw [hr, pathComponents_single x hx hs, hres]
  simp [joinComps, isEmpty_false_of_ne_nil hx]

/-- A string is empty exactly when its character list is. -/
theorem string_ne_empty_iff_data {s : String} : s ≠ "" ↔ s.data ≠ [] := by
  constructor
  · intro h hc
    exact h (String.ext hc)
  · intro h hc
    apply h
    rw [hc]

/-- For two single-component, separator-free, non-dot file names, joining
them onto the same directory is injective. -/
theorem filepathJoin_inj (d x y : String)
    (hxn : x.data ≠ []) (hxs : ∀ c ∈ x.data, c ≠ '/')
    (hx₁ : x.data ≠ ['.']) (hx₂ : x.data ≠ ['.', '.'])
    (hyn : y.data ≠ []) (hys : ∀ c ∈ y.data, c ≠ '/')
    (hy₁ : y.data ≠ ['.']) (hy₂ : y.data ≠ ['.', '.'])
    (hne : x ≠ y) :
    filepathJoin d x ≠ filepathJoin d y := by
  have hdxy : x.data ≠ y.data := fun h => hne (String.ext h)
  by_cases hd : d = ""
  · subst hd
    unfold filepathJoin
    rw [if_pos rfl, if_pos rfl,
      if_neg (string_ne_empty_iff_data.mpr hxn),
      if_neg (string_ne_empty_iff_data.mpr hyn)]
    rw [cleanChars_single x.data hxn hxs hx₁ hx₂,
      cleanChars_single y.data hyn hys hy₁ hy₂]
    intro h
    exact hdxy (congrArg String.data h)
  · unfold filepathJoin
    rw [if_neg hd, if_neg hd]
    have hdd : d.data ≠ [] := string_ne_empty_iff_data.mp hd
    rw [cleanChars_join d.data x.data hdd hxn hxs hx₁ hx₂,
      cleanChars_join d.data y.data hdd hyn hys hy₁ hy₂]
    intro h
    have h2 := congrArg String.data h
    simp only at h2
    exact hdxy (List.append_cancel_left h2)

/-- The character list of a derived bench filename component. -/
theorem benchPart_data (a : String) :
    (normalizeName a ++ ".bench").data =
      a.data.map normalizeChar ++ ['.', 'b', 'e', 'n', 'c', 'h'] := by
  rw [String.data_append]
  rfl

/-- The derived bench filename component is non-empty, separator-free, and
is neither the dot nor the dot-dot component. -/
theorem benchPart_conditions (a : String) :
    (normalizeName a ++ ".bench").data ≠ [] ∧
    (∀ c ∈ (normalizeName a ++ ".bench").data, c ≠ '/') ∧
    (normalizeName a ++ ".bench").data ≠ ['.'] ∧
    (normalizeName a ++ ".bench").data ≠ ['.', '.'] := by
  rw [benchPart_data]
  refine ⟨by simp, ?_, ?_, ?_⟩
  · intro c hc
    rcases List.mem_append.mp hc with h | h
    · obtain ⟨c', _, rfl⟩ := List.mem_map.mp h
      exact normalizeChar_ne_slash c'
    · simp at h
      rcases h with rfl | rfl | rfl | rfl | rfl | rfl <;> decide
  · intro h
    have := congrArg List.length h
    simp at this
  · intro h
    have := congrArg List.length h
    simp at this

end CleanLemmas

section Claims

open Gobench

/-- C1 (amended).  For every revision label, the derived benchmark result
filename equals the output directory joined with the label in which every
path-separator character `/` is replaced by `-`, plus the `.bench` suffix;
this normalization is idempotent.  The normalization is however not
collision-free for arbitrary distinct labels (see the counterexample): it is
collision-free for labels that contain no `-` character, as stated here. -/
theorem c1_filename_derivation (cfg : Config) (a b : String)
    (ha : '-' ∉ a.data) (hb : '-' ∉ b.data) (hab : a ≠ b) :
    benchOutFilename cfg a =
      filepathJoin cfg.OutDir (normalizeName a ++ ".bench") ∧
    normalizeName (normalizeName a) = normalizeName a ∧
    benchOutFilename cfg a ≠ benchOutFilename cfg b := by
  refine ⟨rfl, ?_, ?_⟩
  · apply String.ext
    show (a.data.map normalizeChar).map normalizeChar = a.data.map normalizeChar
    rw [List.map_map]
    exact List.map_congr_left fun c _ => normalizeChar_idem c
  · unfold benchOutFilename
    obtain ⟨hxn, hxs, hx₁, hx₂⟩ := benchPart_conditions a
    obtain ⟨hyn, hys, hy₁, hy₂⟩ := benchPart_conditions b
    apply filepathJoin_inj cfg.OutDir _ _ hxn hxs hx₁ hx₂ hyn hys hy₁ hy₂
    intro h
    have hd := congrArg String.data h
    rw [benchPart_data, benchPart_data] at hd
    have hmap := List.append_cancel_right hd
    have hdata := map_normalizeChar_inj a.data b.data
      (fun c hc hne => ha (hne ▸ hc)) (fun c hc hne => hb (hne ▸ hc)) hmap
    exact hab (String.ext hdata)

/-- C1 counterexample.  Two distinct revision labels used within one run —
one containing a path separator, the other the dash it is replaced by —
derive the same benchmark result filename, so the normalization of the
source is not collision-free as the claim states. -/
theorem c1_collision_counterexample :
    ("release/v2" : String) ≠ "release-v2" ∧
    benchOutFilename ⟨"Bench*", 0, "./lib", "", "", "", "", "", false, "", "out"⟩
        "release/v2" =
      benchOutFilename ⟨"Bench*", 0, "./lib", "", "", "", "", "", false, "", "out"⟩
        "release-v2" :=
  ⟨by decide, by decide⟩

/-- C1 witness: the amended statement applied at a concrete configuration
and two concrete dash-free labels. -/
theorem c1_filename_derivation_witness :
    benchOutFilename ⟨"Bench*", 0, "./lib", "", "", "", "", "", false, "", "out"⟩
        "feat.x" =
      filepathJoin "out" (normalizeName "feat.x" ++ ".bench") ∧
    normalizeName (normalizeName "feat.x") = normalizeName "feat.x" ∧
    benchOutFilename ⟨"Bench*", 0, "./lib", "", "", "", "", "", false, "", "out"⟩
        "feat.x" ≠
      benchOutFilename ⟨"Bench*", 0, "./lib", "", "", "", "", "", false, "", "out"⟩
        "main" :=
  c1_filename_derivation ⟨"Bench*", 0, "./lib", "", "", "", "", "", false, "", "out"⟩
    "feat.x" "main" (by decide) (by decide) (by decide)

end Claims

section OrchestrationClaims

open Gobench

/-- Labels of benchmark runs distribute over trace concatenation. -/
theorem benchRunLabels_append (l₁ l₂ : List Event) :
    benchRunLabels (l₁ ++ l₂) = benchRunLabels l₁ ++ benchRunLabels l₂ :=
  List.filterMap_append l₁ l₂ _

/-- C2: the code contradicts the claim.  When the result file was created
and the benchmark engine exits non-zero (`cmd.Run` returns an error),
`runBenchmark` nevertheless returns nil — the error built by `fmt.Errorf`
at src/main.go line 165 is discarded — so the caller's `checkErr` sees no
error and the workflow continues instead of aborting. -/
theorem c2_engine_failure_not_reported (e : String) :
    runBenchmarkErr none (some e) = none ∧
    checkErrFatal "run benchmark" (runBenchmarkErr none (some e)) = none :=
  ⟨rfl, rfl⟩

/-- C3: with an explicit base label and a dirty working tree, the whole main
trace is the single fatal configuration-conflict abort, so no checkout,
stash or benchmark side effect happens before (or after) the failure. -/
theorem c3_base_and_dirty_fails_fast (g : String) (r : Runner)
    (hbase : r.config.Base ≠ "") :
    mainTrace g r true =
      [Event.fatal "error: --base set, but there are uncommited changes."] ∧
    ∀ e ∈ mainTrace g r true, isSideEffect e = false := by
  have ht : mainTrace g r true =
      [Event.fatal "error: --base set, but there are uncommited changes."] := by
    simp [mainTrace, runBenchmarks, hbase, isFatal]
  refine ⟨ht, ?_⟩
  rw [ht]
  intro e he
  simp at he
  subst he
  rfl

/-- C3 witness at a concrete runner with a base label and a dirty tree. -/
theorem c3_witness :
    mainTrace "go"
        ⟨"master", ⟨"Bench*", 0, "./lib", "v1", "", "", "", "", false, "", "out"⟩⟩
        true =
      [Event.fatal "error: --base set, but there are uncommited changes."] ∧
    ∀ e ∈ mainTrace "go"
        ⟨"master", ⟨"Bench*", 0, "./lib", "v1", "", "", "", "", false, "", "out"⟩⟩
        true, isSideEffect e = false :=
  c3_base_and_dirty_fails_fast "go"
    ⟨"master", ⟨"Bench*", 0, "./lib", "v1", "", "", "", "", false, "", "out"⟩⟩
    (by decide)

/-- C4: with no explicit base label and a dirty tree, the base label resolves
to the stash sentinel and the trace is exactly stash-save, the stash run,
stash-pop, the current run, then the benchstat comparison of the two. -/
theorem c4_stash_compare (g : String) (r : Runner)
    (hbase : r.config.Base = "") :
    (runBenchmarks g r true).1 =
      [Event.stash "save", Event.benchRun g "stash", Event.stash "pop",
       Event.benchRun (if r.config.BaseGoExe = "" then g else r.config.BaseGoExe)
         r.currentBranch,
       Event.benchStat "stash" r.currentBranch] ∧
    (runBenchmarks g r true).2.Base = "stash" := by
  have hs : ("stash" : String) ≠ "" := by decide
  constructor <;> simp [runBenchmarks, hbase, hs]

/-- C4 witness at a concrete runner with no base and a dirty tree. -/
theorem c4_witness :
    (runBenchmarks "go"
        ⟨"master", ⟨"Bench*", 0, "./lib", "", "", "", "", "", false, "", "out"⟩⟩
        true).1 =
      [Event.stash "save", Event.benchRun "go" "stash", Event.stash "pop",
       Event.benchRun "go" "master", Event.benchStat "stash" "master"] ∧
    (runBenchmarks "go"
        ⟨"master", ⟨"Bench*", 0, "./lib", "", "", "", "", "", false, "", "out"⟩⟩
        true).2.Base = "stash" :=
  c4_stash_compare "go"
    ⟨"master", ⟨"Bench*", 0, "./lib", "", "", "", "", "", false, "", "out"⟩⟩ rfl

/-- C5: when the user leaves the repeat count unset (zero) the resolved
count is the comparison constant (4) exactly when a base label (explicit or
the implicit stash sentinel, i.e. the resolved `Base` field) or an alternate
toolchain binary is present, and 1 otherwise; a non-zero user count is kept
unchanged. -/
theorem c5_count_resolution (g : String) (r : Runner) (dirty : Bool)
    (hok : ¬(dirty = true ∧ r.config.Base ≠ "")) :
    benchStatCountCompare = 4 ∧
    (r.config.Count = 0 →
      (runBenchmarks g r dirty).2.Count =
        if (runBenchmarks g r dirty).2.Base ≠ "" ∨ r.config.BaseGoExe ≠ ""
        then benchStatCountCompare else 1) ∧
    (r.config.Count ≠ 0 →
      (runBenchmarks g r dirty).2.Count = r.config.Count) := by
  refine ⟨rfl, ?_, ?_⟩
  · intro hc
    simp [runBenchmarks, hok, hc]
  · intro hc
    simp [runBenchmarks, hok, hc]

/-- C5 witness: an unset count with a pending comparison (explicit base,
clean tree) resolves to the comparison constant. -/
theorem c5_witness :
    benchStatCountCompare = 4 ∧
    ((0 : Int) = 0 →
      (runBenchmarks "go"
          ⟨"master", ⟨"Bench*", 0, "./lib", "v1", "", "", "", "", false, "", "out"⟩⟩
          false).2.Count =
        if (runBenchmarks "go"
            ⟨"master", ⟨"Bench*", 0, "./lib", "v1", "", "", "", "", false, "", "out"⟩⟩
            false).2.Base ≠ "" ∨ ("" : String) ≠ ""
        then benchStatCountCompare else 1) ∧
    ((0 : Int) ≠ 0 →
      (runBenchmarks "go"
          ⟨"master", ⟨"Bench*", 0, "./lib", "v1", "", "", "", "", false, "", "out"⟩⟩
          false).2.Count = 0) :=
  c5_count_resolution "go"
    ⟨"master", ⟨"Bench*", 0, "./lib", "v1", "", "", "", "", false, "", "out"⟩⟩
    false (by decide)

end OrchestrationClaims

section OrchestrationClaimsTwo

open Gobench

/-- C6 counterexample.  With no base label and a clean tree, but with an
alternate toolchain binary and a profiling type set, the main trace holds
two benchmark runs, a benchstat comparison and a pprof step — refuting the
claim that one run occurs and neither comparison nor profiling runs. -/
theorem c6_counterexample :
    (List.filter isBenchRun
      (mainTrace "go"
        ⟨"master", ⟨"Bench*", 0, "./lib", "", "altgo", "", "", "cpu", false, "", "out"⟩⟩
        false)).length = 2 ∧
    (mainTrace "go"
        ⟨"master", ⟨"Bench*", 0, "./lib", "", "altgo", "", "", "cpu", false, "", "out"⟩⟩
        false).any isBenchStat = true ∧
    (mainTrace "go"
        ⟨"master", ⟨"Bench*", 0, "./lib", "", "altgo", "", "", "cpu", false, "", "out"⟩⟩
        false).any isPprof = true :=
  ⟨by decide, by decide, by decide⟩

/-- C6 (amended).  With no explicit base label, a clean working tree, no
alternate toolchain binary and no profiling request, the main trace is a
single benchmark run against the current label: no comparison and no pprof
step. -/
theorem c6_single_run (g : String) (r : Runner)
    (hbase : r.config.Base = "") (hexe : r.config.BaseGoExe = "")
    (hprof : r.config.ProfType = "") :
    mainTrace g r false = [Event.benchRun g r.currentBranch] := by
  simp [mainTrace, runBenchmarks, profilingEnabled, isFatal, hbase, hexe, hprof]

/-- C6 witness at a concrete clean, no-base, no-profile configuration. -/
theorem c6_single_run_witness :
    mainTrace "go"
        ⟨"master", ⟨"Bench*", 0, "./lib", "", "", "", "", "", false, "", "out"⟩⟩
        false = [Event.benchRun "go" "master"] :=
  c6_single_run "go"
    ⟨"master", ⟨"Bench*", 0, "./lib", "", "", "", "", "", false, "", "out"⟩⟩
    rfl rfl rfl

/-- C7: when the explicit base label equals the current label (clean tree),
the trace is checkout of the base, the baseline run, the current run with no
second checkout, and still a benchstat comparison — a non-empty first label
triggers comparison even when equal to the second. -/
theorem c7_base_equals_current (g : String) (r : Runner)
    (hne : r.config.Base ≠ "") (heq : r.config.Base = r.currentBranch) :
    (runBenchmarks g r false).1 =
      [Event.checkout r.currentBranch, Event.benchRun g r.currentBranch,
       Event.benchRun (if r.config.BaseGoExe = "" then g else r.config.BaseGoExe)
         r.currentBranch,
       Event.benchStat r.currentBranch r.currentBranch] := by
  have hcur : r.currentBranch ≠ "" := heq ▸ hne
  simp [runBenchmarks, heq, hcur]

/-- C7 witness: base label equal to the current branch. -/
theorem c7_witness :
    (runBenchmarks "go"
        ⟨"master", ⟨"Bench*", 0, "./lib", "master", "", "", "", "", false, "", "out"⟩⟩
        false).1 =
      [Event.checkout "master", Event.benchRun "go" "master",
       Event.benchRun "go" "master", Event.benchStat "master" "master"] :=
  c7_base_equals_current "go"
    ⟨"master", ⟨"Bench*", 0, "./lib", "master", "", "", "", "", false, "", "out"⟩⟩
    (by decide) rfl

/-- C8: on every execution path, either the run aborts fatally, or the list
of benchmark-run labels is the current label alone, or it is some baseline
label followed by the current label — so whenever both a baseline run and a
current-branch run occur, the baseline run comes strictly first. -/
theorem c8_baseline_before_current (g : String) (r : Runner) (dirty : Bool) :
    (∃ m, (runBenchmarks g r dirty).1 = [Event.fatal m]) ∨
    benchRunLabels (runBenchmarks g r dirty).1 = [r.currentBranch] ∨
    ∃ firstLab, benchRunLabels (runBenchmarks g r dirty).1 =
      [firstLab, r.currentBranch] := by
  by_cases h1 : dirty = true ∧ r.config.Base ≠ ""
  · exact Or.inl ⟨"error: --base set, but there are uncommited changes.",
      by simp [runBenchmarks, h1]⟩
  · cases dirty with
    | true =>
      have hbase : r.config.Base = "" := by
        by_contra hb
        exact h1 ⟨rfl, hb⟩
      refine Or.inr (Or.inr ⟨"stash", ?_⟩)
      have hs : ("stash" : String) ≠ "" := by decide
      simp [runBenchmarks, hbase, hs, benchRunLabels]
    | false =>
      by_cases h2 : r.config.Base ≠ "" ∨ r.config.BaseGoExe ≠ ""
      · refine Or.inr (Or.inr
          ⟨if r.config.Base = "" then r.currentBranch else r.config.Base, ?_⟩)
        simp only [runBenchmarks]
        rw [if_neg (by simp)]
        simp [h2, benchRunLabels, apply_ite (List.filterMap _)]
      · push_neg at h2
        refine Or.inr (Or.inl ?_)
        simp [runBenchmarks, h2.1, h2.2, benchRunLabels]

/-- C9: an unsupported profiling type makes `main` fail at flag validation,
before the output directory is created and before any benchmark step; in
the variant that exposes profiling as two booleans, requesting both is a
fatal configuration error at the same point. -/
theorem c9_invalid_profiling_fails_first (g tmp cur : String) (cfg : Config)
    (dirty : Bool) (hp : cfg.ProfType ≠ "") (hm : cfg.ProfType ≠ "mem")
    (hc : cfg.ProfType ≠ "cpu") (hb : cfg.ProfType ≠ "block")
    (tmp₂ : String) (vcfg : GobenchVariant.Config)
    (hvc : vcfg.EnableCpuProfile = true) (hvm : vcfg.EnableMemProfile = true) :
    mainSteps g tmp cur cfg dirty = [MainStep.usageFail "Unsupported profType"] ∧
    GobenchVariant.mainSteps tmp₂ vcfg =
      [GobenchVariant.Step.fatal
        "Use either --enablememprofile or --enablecpuprofile -- not both."] := by
  constructor
  · simp [mainSteps, hp, hm, hc, hb]
  · simp [GobenchVariant.mainSteps, hvc, hvm]

/-- C9 witness: a concrete unsupported profiling type, and the variant with
both profile booleans set. -/
theorem c9_witness :
    mainSteps "go" "tmp" "master"
        ⟨"Bench*", 0, "./lib", "", "", "", "", "heap", false, "", "out"⟩ false =
      [MainStep.usageFail "Unsupported profType"] ∧
    GobenchVariant.mainSteps "tmp"
        ⟨"Bench*", 3, true, "./...", "master", "master", true, true, ""⟩ =
      [GobenchVariant.Step.fatal
        "Use either --enablememprofile or --enablecpuprofile -- not both."] :=
  c9_invalid_profiling_fails_first "go" "tmp" "master"
    ⟨"Bench*", 0, "./lib", "", "", "", "", "heap", false, "", "out"⟩ false
    (by decide) (by decide) (by decide) (by decide) "tmp"
    ⟨"Bench*", 3, true, "./...", "master", "master", true, true, ""⟩ rfl rfl

/-- C10: with an empty base label, a clean tree and a non-empty alternate
toolchain binary, the first label resolves to the current branch, both runs
target the same label (hence the same result filename), the second run's
truncate-mode write overwrites the baseline's records, and the benchstat
step compares that label with itself. -/
theorem c10_alt_toolchain_overwrite (g : String) (r : Runner)
    (engineOut : String → String → String) (fs : String → Option String)
    (hbase : r.config.Base = "") (hexe : r.config.BaseGoExe ≠ "")
    (hcur : r.currentBranch ≠ "") :
    (runBenchmarks g r false).1 =
      [Event.checkout r.currentBranch, Event.benchRun g r.currentBranch,
       Event.benchRun r.config.BaseGoExe r.currentBranch,
       Event.benchStat r.currentBranch r.currentBranch] ∧
    runBenchWrites r.config engineOut (runBenchmarks g r false).1 fs
        (benchOutFilename r.config r.currentBranch) =
      some (engineOut r.config.BaseGoExe r.currentBranch) := by
  have ht : (runBenchmarks g r false).1 =
      [Event.checkout r.currentBranch, Event.benchRun g r.currentBranch,
       Event.benchRun r.config.BaseGoExe r.currentBranch,
       Event.benchStat r.currentBranch r.currentBranch] := by
    simp [runBenchmarks, hbase, hexe, hcur]
  refine ⟨ht, ?_⟩
  rw [ht]
  simp [runBenchWrites, fsWrite]

/-- C10 witness: a concrete alternate-toolchain run whose second write wins. -/
theorem c10_witness :
    (runBenchmarks "go"
        ⟨"master", ⟨"Bench*", 0, "./lib", "", "go1.22", "", "", "", false, "", "out"⟩⟩
        false).1 =
      [Event.checkout "master", Event.benchRun "go" "master",
       Event.benchRun "go1.22" "master", Event.benchStat "master" "master"] ∧
    runBenchWrites ⟨"Bench*", 0, "./lib", "", "go1.22", "", "", "", false, "", "out"⟩
        (fun exe lab => exe ++ " " ++ lab)
        (runBenchmarks "go"
          ⟨"master", ⟨"Bench*", 0, "./lib", "", "go1.22", "", "", "", false, "", "out"⟩⟩
          false).1
        (fun _ => none)
        (benchOutFilename
          ⟨"Bench*", 0, "./lib", "", "go1.22", "", "", "", false, "", "out"⟩ "master") =
      some ("go1.22" ++ " " ++ "master") :=
  c10_alt_toolchain_overwrite "go"
    ⟨"master", ⟨"Bench*", 0, "./lib", "", "go1.22", "", "", "", false, "", "out"⟩⟩
    (fun exe lab => exe ++ " " ++ lab) (fun _ => none)
    rfl (by decide) (by decide)

end OrchestrationClaimsTwo
